import Mathlib

/-!
Verification of the Redis embeddings-search notebook
(examples/vector_databases/redis/Using_Redis_for_embeddings_search.ipynb).

The notebook's own logic is an ingestion adapter (`index_documents`), an
index-provisioning cell (try `info`, on any exception `create_index`), a
query adapter (`search_redis`) and a filter-fragment builder
(`create_hybrid_field`).  All of these are embedded below.

Modelling decisions:
* A 32-bit float is represented by its bit pattern, a `Nat` below `2 ^ 32`;
  `numpy.tobytes` on a float32 array writes each element as 4 bytes in
  native (little-endian) byte order, embedded as `serializeWord`.
* A Python dict is a `Doc := String → Option Value`; dict assignment is
  `setField`.  Row dicts live in a heap (`List Doc`) so that the copying
  performed by `DataFrame.to_dict("records")` and the in-place mutation of
  the copies are both visible.
* Raw distances reported by the store (`vector_score`) are `Rat`.
* Redis itself is external to the repository; the pieces of its behaviour
  that some claims depend on (existence probe, index creation, query
  execution honouring `SORTBY` and `LIMIT`) are modelled from the spec and
  marked as such in their doc comments.
-/

/-- One byte-sized limb of a machine word. -/
def serializeWord (w : Nat) : List Nat :=
  [w % 256, w / 256 % 256, w / 65536 % 256, w / 16777216 % 256]

/-- `np.array(v, dtype=np.float32).tobytes()`: each element (a float32 bit
pattern) becomes exactly 4 bytes, little-endian, no length marker. -/
def serializeVec (v : List Nat) : List Nat :=
  (v.map serializeWord).flatten

/-- Inverse reading: reassemble consecutive 4-byte groups into words
(`np.frombuffer(b, dtype=np.float32)`). -/
def deserializeVec : List Nat → List Nat
  | b0 :: b1 :: b2 :: b3 :: rest =>
      (b0 + 256 * b1 + 65536 * b2 + 16777216 * b3) :: deserializeVec rest
  | _ => []

/-- A value stored in a row dict: the dataset's string columns, a vector
column as a list of float32 bit patterns, or a serialized byte blob. -/
inductive Value where
  | str : String → Value
  | floats : List Nat → Value
  | bytes : List Nat → Value
deriving DecidableEq, Repr

/-- A Python dict from field name to value, as its lookup function. -/
def Doc : Type := String → Option Value

/-- `doc[k] = v`. -/
def setField (d : Doc) (k : String) (v : Value) : Doc :=
  fun q => if q = k then some v else d q

/-- Coercion applied by `np.array(x, dtype=np.float32)`: the vector columns
hold lists of floats. -/
def floatsOf : Option Value → List Nat
  | some (.floats v) => v
  | _ => []

/-- Coercion applied by `str(x)`: the id column holds strings. -/
def strOf : Option Value → String
  | some (.str s) => s
  | _ => ""

/-- `key = f"{prefix}:{str(doc['id'])}"`. -/
def hsetKey (pre : String) (d : Doc) : String :=
  pre ++ ":" ++ strOf (d "id")

/-- The body of the ingestion loop acting on one row dict: build the two
byte vectors and replace the float lists with them. -/
def transformDoc (d : Doc) : Doc :=
  let title_embedding := serializeVec (floatsOf (d "title_vector"))
  let content_embedding := serializeVec (floatsOf (d "content_vector"))
  setField (setField d "title_vector" (.bytes title_embedding))
    "content_vector" (.bytes content_embedding)

/-- Heap cell lookup; a dangling reference reads as an empty dict. -/
def getCell (h : List Doc) (r : Nat) : Doc :=
  h.getD r (fun _ => none)

/-- In-place mutation of one heap cell. -/
def setCell (h : List Doc) (r : Nat) (d : Doc) : List Doc :=
  h.set r d

/-- State threaded through the ingestion loop: the dict heap and the
`client.hset(key, mapping=doc)` calls issued so far. -/
structure IngestState where
  heap : List Doc
  writes : List (String × Doc)

/-- One iteration of the loop in `index_documents`: compute the key, mutate
the row dict's two vector fields, issue the write. -/
def indexStep (pre : String) (s : IngestState) (r : Nat) : IngestState :=
  let doc := getCell s.heap r
  let key := hsetKey pre doc
  let doc2 := transformDoc doc
  { heap := setCell s.heap r doc2, writes := s.writes ++ [(key, doc2)] }

/-- `index_documents(client, prefix, documents)`.  `documents` is the list
of heap references to the dataframe's rows; `to_dict("records")` first
allocates a fresh copy of every row at the end of the heap, then the loop
runs over those copies.  (The row values themselves are copied by value;
the source only rebinds `doc["title_vector"]`/`doc["content_vector"]`, it
never mutates a shared list, so sharing of the float lists is
unobservable.) -/
def index_documents (heap : List Doc) (pre : String) (rows : List Nat) :
    IngestState :=
  let heap1 := heap ++ rows.map (getCell heap)
  let records := List.range' heap.length rows.length
  records.foldl (indexStep pre) { heap := heap1, writes := [] }

example : serializeVec [1, 256] = [1, 0, 0, 0, 0, 1, 0, 0] := by decide
example : deserializeVec [1, 0, 0, 0, 0, 1, 0, 0] = [1, 256] := by decide

/-! ### Index provisioning (the try/except cell) -/

/-- Names of the indexes currently held by the store. -/
abbrev StoreIndexes := List String

/-- Ways `redis_client.ft(name).info()` can raise: the index is missing, or
the probe itself fails for an unrelated reason. -/
inductive RedisError where
  | notFound
  | connection
  | timeout
  | other
deriving DecidableEq, Repr

/-- Modelled from the spec: `FT.INFO` — the store's index-describe-by-name
operation is external to the repository; per the spec it succeeds exactly
when an index of that name exists and otherwise raises not-found. -/
def ft_info (s : StoreIndexes) (nm : String) : Except RedisError Unit :=
  if nm ∈ s then .ok () else .error .notFound

/-- Modelled from the spec: `FT.CREATE` — the store's index-creation
operation, external to the repository; it registers the new index name. -/
def ft_create_index (s : StoreIndexes) (nm : String) : StoreIndexes :=
  nm :: s

/-- Outcome of running the provisioning cell once: the store afterwards,
whether `create_index` was invoked, and whether the cell raised. -/
structure EnsureResult where
  state : StoreIndexes
  created : Bool
  raised : Bool
deriving Repr

/-- The provisioning cell given the outcome of the `info()` probe: on
success print and stop; the bare `except:` turns EVERY failure into the
create branch. -/
def ensureIndexProbe (probe : Except RedisError Unit) (s : StoreIndexes)
    (nm : String) : EnsureResult :=
  match probe with
  | .ok _ => { state := s, created := false, raised := false }
  | .error _ => { state := ft_create_index s nm, created := true, raised := false }

/-- The provisioning cell run against a reachable store: probe with
`info()`, create on failure. -/
def ensure_index (s : StoreIndexes) (nm : String) : EnsureResult :=
  ensureIndexProbe (ft_info s nm) s nm

/-! ### Query adapter (`search_redis`) and hybrid filter fragments -/

/-- `create_hybrid_field(field_name, value)`. -/
def create_hybrid_field (field_name value : String) : String :=
  "@" ++ field_name ++ ":" ++ "\"" ++ value ++ "\""

/-- The redis-py `Query` object as configured by `search_redis`:
`Query(base_query).return_fields(*return_fields).sort_by("vector_score")
.paging(0, k).dialect(2)` (redis-py `sort_by` defaults to ascending). -/
structure RedisQuery where
  query_string : String
  return_fields : List String
  sort_field : Option String
  sort_asc : Bool
  paging_offset : Nat
  paging_num : Nat
  dialect : Nat
deriving Repr

/-- The search request handed to `redis_client.ft(index_name).search`:
the query object plus the `params_dict` bindings. -/
structure SearchRequest where
  index_name : String
  query : RedisQuery
  params : List (String × List Nat)
deriving Repr

/-- The request-construction half of `search_redis`: embed the user query,
build the hybrid `=>[KNN ...]` expression, configure the query object and
bind the serialized query vector.  `embed` is the opaque embedding
service (string to float32 bit patterns). -/
def search_redis_request (embed : String → List Nat) (user_query : String)
    (index_name vector_field : String) (return_fields : List String)
    (hybrid_fields : String) (k : Nat) : SearchRequest :=
  let embedded_query := embed user_query
  let base_query := hybrid_fields ++ "=>[KNN " ++ toString k ++ " @" ++
    vector_field ++ " $vector AS vector_score]"
  { index_name := index_name
    query :=
      { query_string := base_query
        return_fields := return_fields
        sort_field := some "vector_score"
        sort_asc := true
        paging_offset := 0
        paging_num := k
        dialect := 2 }
    params := [("vector", serializeVec embedded_query)] }

/-- One raw result document as returned by the store: the requested fields
plus the `vector_score` distance alias (a float, kept as `Rat`). -/
structure ResultDoc where
  title : String
  url : String
  text : String
  vector_score : Rat
deriving DecidableEq, Repr

/-- Ascending order on the store-reported distance alias. -/
def scoreLe (a b : ResultDoc) : Prop :=
  a.vector_score ≤ b.vector_score

instance : DecidableRel scoreLe := fun a b =>
  inferInstanceAs (Decidable (a.vector_score ≤ b.vector_score))

instance : IsTotal ResultDoc scoreLe :=
  ⟨fun a b => le_total a.vector_score b.vector_score⟩

instance : IsTrans ResultDoc scoreLe :=
  ⟨fun _ _ _ h1 h2 => le_trans h1 h2⟩

/-- Modelled from the spec: `FT.SEARCH` — the store's query execution is
external to the repository; per the spec it returns the matching documents
ranked by the requested sort field (ascending when so configured) and cut
to the single requested page. -/
def ft_search (stored : List ResultDoc) (q : RedisQuery) : List ResultDoc :=
  let ranked :=
    if q.sort_asc ∧ q.sort_field = some "vector_score" then
      List.insertionSort scoreLe stored
    else stored
  (ranked.drop q.paging_offset).take q.paging_num

/-- What `search_redis` produces: the returned `results.docs` and, for each
result in order, the printed line's payload — the title together with the
normalized score `score = 1 - float(article.vector_score)`. -/
structure SearchOutput where
  docs : List ResultDoc
  printed : List (String × Rat)
deriving Repr

/-- `search_redis(redis_client, user_query, ...)` run against a store
holding `stored`: build the request, let the store execute it, then loop
over the results printing `1 - vector_score` and return the docs. -/
def search_redis (stored : List ResultDoc) (embed : String → List Nat)
    (user_query index_name vector_field : String)
    (return_fields : List String) (hybrid_fields : String) (k : Nat) :
    SearchOutput :=
  let req := search_redis_request embed user_query index_name vector_field
    return_fields hybrid_fields k
  let results := ft_search stored req.query
  { docs := results
    printed := results.map (fun d => (d.title, 1 - d.vector_score)) }

/-- Number of double-quote characters in a string; an odd count means the
quoting in a query fragment cannot be balanced. -/
def countQuotes (s : String) : Nat :=
  s.data.count '\"'

/-! ### Serialization lemmas -/

lemma length_serializeVec (v : List Nat) :
    (serializeVec v).length = 4 * v.length := by
  induction v with
  | nil => rfl
  | cons w v ih =>
    simp only [serializeVec, List.map_cons, List.flatten_cons, List.length_append,
      List.length_cons] at *
    simp [serializeWord, ih]
    ring

lemma deserializeVec_serializeVec (v : List Nat)
    (hv : ∀ w ∈ v, w < 4294967296) :
    deserializeVec (serializeVec v) = v := by
  induction v with
  | nil => rfl
  | cons w v ih =>
    have hw : w < 4294967296 := hv w (List.mem_cons_self _ _)
    have hrest : ∀ x ∈ v, x < 4294967296 :=
      fun x hx => hv x (List.mem_cons_of_mem _ hx)
    show deserializeVec (serializeVec (w :: v)) = w :: v
    have hsplit : serializeVec (w :: v) = serializeWord w ++ serializeVec v := by
      simp [serializeVec, serializeWord]
    rw [hsplit]
    simp only [serializeWord, List.cons_append, List.nil_append, deserializeVec,
      List.append]
    rw [ih hrest]
    congr 1
    omega

/-! ### Ingestion loop lemmas -/

lemma getCell_setCell_ne (h : List Doc) (r r' : Nat) (d : Doc)
    (hne : r' ≠ r) :
    getCell (setCell h r d) r' = getCell h r' := by
  simp only [getCell, setCell, List.getD_eq_getElem?_getD]
  rw [List.getElem?_set_ne (fun he => hne he.symm)]

lemma take_setCell_of_le (h : List Doc) (r n : Nat) (d : Doc) (hn : n ≤ r) :
    (setCell h r d).take n = h.take n := by
  apply List.ext_getElem?
  intro i
  rw [List.getElem?_take, List.getElem?_take]
  by_cases hi : i < n
  · rw [if_pos hi, if_pos hi, setCell, List.getElem?_set_ne (by omega)]
  · rw [if_neg hi, if_neg hi]

lemma foldl_indexStep_writes (pre : String) :
    ∀ (rs : List Nat) (s : IngestState), rs.Nodup →
      (rs.foldl (indexStep pre) s).writes =
        s.writes ++ rs.map (fun r =>
          (hsetKey pre (getCell s.heap r), transformDoc (getCell s.heap r)))
  | [], s, _ => by simp
  | r :: rs, s, h => by
    have hnd : rs.Nodup := (List.nodup_cons.mp h).2
    have hmem : r ∉ rs := (List.nodup_cons.mp h).1
    rw [List.foldl_cons, foldl_indexStep_writes pre rs _ hnd]
    show (s.writes ++ [(hsetKey pre (getCell s.heap r),
        transformDoc (getCell s.heap r))]) ++ _ = _
    rw [List.map_cons, List.append_assoc, List.singleton_append]
    congr 2
    apply List.map_congr_left
    intro r' hr'
    have : getCell (indexStep pre s r).heap r' = getCell s.heap r' := by
      apply getCell_setCell_ne
      intro he
      exact hmem (he ▸ hr')
    rw [this]

lemma foldl_indexStep_heap_take (pre : String) (n : Nat) :
    ∀ (rs : List Nat) (s : IngestState), (∀ r ∈ rs, n ≤ r) →
      ((rs.foldl (indexStep pre) s).heap).take n = s.heap.take n
  | [], _, _ => rfl
  | r :: rs, s, h => by
    rw [List.foldl_cons,
      foldl_indexStep_heap_take pre n rs _ (fun q hq => h q (List.mem_cons_of_mem _ hq))]
    exact take_setCell_of_le _ _ _ _ (h r (List.mem_cons_self _ _))

lemma map_getCell_range' {β : Type} (f : Doc → β) :
    ∀ (cs : List Doc) (heap : List Doc),
      (List.range' heap.length cs.length).map
        (fun q => f (getCell (heap ++ cs) q)) = cs.map f
  | [], _ => rfl
  | c :: cs, heap => by
    rw [List.length_cons, List.range'_succ, List.map_cons, List.map_cons]
    have hhd : getCell (heap ++ c :: cs) heap.length = c := by
      simp only [getCell, List.getD_eq_getElem?_getD,
        List.getElem?_append_right (le_refl heap.length), Nat.sub_self]
      simp
    rw [hhd]
    congr 1
    have := map_getCell_range' f cs (heap ++ [c])
    rw [List.length_append, List.length_singleton, List.append_assoc,
      List.singleton_append] at this
    exact this

lemma index_documents_writes_eq (heap : List Doc) (pre : String)
    (rows : List Nat) :
    (index_documents heap pre rows).writes
      = rows.map (fun r =>
          (hsetKey pre (getCell heap r), transformDoc (getCell heap r))) := by
  rw [index_documents, foldl_indexStep_writes pre _ _
    (List.nodup_range' _ _), List.nil_append]
  have h1 := map_getCell_range'
    (fun c => (hsetKey pre c, transformDoc c)) (rows.map (getCell heap)) heap
  rw [List.length_map, List.map_map] at h1
  exact h1

/-! ### Claim theorems -/

/-- C1: every embedding vector ingested by `index_documents` (via
`transformDoc`, the body of its loop) is serialized to bytes at exactly
4 bytes per element, and deserializing those bytes yields the original
float32 sequence (serialize then deserialize is the identity on
float32-representable sequences). -/
theorem ingest_vector_roundtrip (v : List Nat) (hv : ∀ w ∈ v, w < 4294967296)
    (d : Doc) (hd : d "title_vector" = some (.floats v)) :
    transformDoc d "title_vector" = some (.bytes (serializeVec v)) ∧
    (serializeVec v).length = 4 * v.length ∧
    deserializeVec (serializeVec v) = v := by
  refine ⟨?_, length_serializeVec v, deserializeVec_serializeVec v hv⟩
  simp [transformDoc, setField, hd, floatsOf]

theorem ingest_vector_roundtrip_witness :
    transformDoc
        (fun q => if q = "title_vector" then some (.floats [3, 4294967295])
          else none) "title_vector"
      = some (.bytes (serializeVec [3, 4294967295])) ∧
    (serializeVec [3, 4294967295]).length = 4 * [3, 4294967295].length ∧
    deserializeVec (serializeVec [3, 4294967295]) = [3, 4294967295] :=
  ingest_vector_roundtrip [3, 4294967295] (by decide)
    (fun q => if q = "title_vector" then some (.floats [3, 4294967295])
      else none) (by simp)

/-- C2: the request `search_redis` submits is the conjunction of the filter
expression with a KNN-`k` clause over the vector field bound to the
serialized query vector, requesting exactly `k` results (`LIMIT 0 k`) and
sorting ascending on the reported distance alias; with the wildcard
filter `*` the expression's filter part is the bare wildcard, i.e. vector
similarity only. -/
theorem search_query_construction (embed : String → List Nat)
    (uq ix vf : String) (rf : List String) (hf : String) (k : Nat) :
    (search_redis_request embed uq ix vf rf hf k).query.query_string
        = hf ++ "=>[KNN " ++ toString k ++ " @" ++ vf ++
          " $vector AS vector_score]" ∧
    (search_redis_request embed uq ix vf rf hf k).query.sort_field
        = some "vector_score" ∧
    (search_redis_request embed uq ix vf rf hf k).query.sort_asc = true ∧
    (search_redis_request embed uq ix vf rf hf k).query.paging_offset = 0 ∧
    (search_redis_request embed uq ix vf rf hf k).query.paging_num = k ∧
    (search_redis_request embed uq ix vf rf hf k).params
        = [("vector", serializeVec (embed uq))] ∧
    (search_redis_request embed uq ix vf rf "*" k).query.query_string
        = "*" ++ "=>[KNN " ++ toString k ++ " @" ++ vf ++
          " $vector AS vector_score]" :=
  ⟨rfl, rfl, rfl, rfl, rfl, rfl, rfl⟩

/-- C6: provisioning twice with an unchanged schema leaves exactly one
index in the store, performs no second creation and raises no error on
the second call. -/
theorem ensure_index_idempotent (s : StoreIndexes) (nm : String)
    (h : nm ∉ s) :
    (ensure_index (ensure_index s nm).state nm).state.count nm = 1 ∧
    (ensure_index (ensure_index s nm).state nm).created = false ∧
    (ensure_index (ensure_index s nm).state nm).raised = false ∧
    (ensure_index (ensure_index s nm).state nm).state
      = (ensure_index s nm).state := by
  have hcount : s.count nm = 0 := List.count_eq_zero.mpr h
  simp [ensure_index, ensureIndexProbe, ft_info, ft_create_index, h, hcount]

theorem ensure_index_idempotent_witness :
    (ensure_index (ensure_index [] "embeddings-index").state
        "embeddings-index").state.count "embeddings-index" = 1 ∧
    (ensure_index (ensure_index [] "embeddings-index").state
        "embeddings-index").created = false ∧
    (ensure_index (ensure_index [] "embeddings-index").state
        "embeddings-index").raised = false ∧
    (ensure_index (ensure_index [] "embeddings-index").state
        "embeddings-index").state
      = (ensure_index [] "embeddings-index").state :=
  ensure_index_idempotent [] "embeddings-index" (by simp)

/-- C7: the provisioning cell's bare `except:` treats EVERY failure of the
`info()` existence probe — not only not-found — as "index absent" and
proceeds to create the index. -/
theorem ensure_index_any_error_creates (e : RedisError) (s : StoreIndexes)
    (nm : String) :
    (ensureIndexProbe (.error e) s nm).created = true ∧
    (ensureIndexProbe (.error e) s nm).state = ft_create_index s nm :=
  ⟨rfl, rfl⟩

/-- C10: `create_hybrid_field` returns exactly
`'@' + field_name + ':\x22' + value + '\x22'` with no escaping or
validation; for a value containing a double quote the fragment has an odd
number of quote characters, so its quoting structure is unbalanced. -/
theorem create_hybrid_field_no_escaping :
    (∀ f v, create_hybrid_field f v
        = "@" ++ f ++ ":" ++ "\"" ++ v ++ "\"") ∧
    '\"' ∈ "5\" nails".data ∧
    countQuotes (create_hybrid_field "title" "5\" nails") % 2 = 1 :=
  ⟨fun _ _ => rfl, by decide, by decide⟩

/-- C9: `index_documents` does not mutate its `documents` argument: every
heap cell the dataframe's rows live in reads the same after the call; the
byte-encoding happens on the fresh per-row copies made by
`to_dict("records")`. -/
theorem index_documents_preserves_input (heap : List Doc) (pre : String)
    (rows : List Nat) (r : Nat) (hr : r < heap.length) :
    getCell (index_documents heap pre rows).heap r = getCell heap r := by
  have hmem : ∀ q ∈ List.range' heap.length rows.length, heap.length ≤ q := by
    intro q hq
    rcases List.mem_range'.mp hq with ⟨i, _, rfl⟩
    omega
  have htake : ((index_documents heap pre rows).heap).take heap.length
      = heap := by
    rw [index_documents, foldl_indexStep_heap_take pre heap.length _ _ hmem]
    exact List.take_left heap _
  have hget : ((index_documents heap pre rows).heap)[r]? = heap[r]? := by
    have h2 := congrArg (fun l => l[r]?) htake
    simp only [List.getElem?_take, if_pos hr] at h2
    exact h2
  simp only [getCell, List.getD_eq_getElem?_getD, hget]

theorem index_documents_preserves_input_witness :
    getCell (index_documents
        [fun q => if q = "id" then some (.str "1") else none] "doc" [0]).heap 0
      = getCell [fun q => if q = "id" then some (.str "1") else none] 0 :=
  index_documents_preserves_input
    [fun q => if q = "id" then some (.str "1") else none] "doc" [0] 0
    (by simp)

/-- C5: `index_documents` performs exactly one write per input record,
keyed `prefix ++ ":" ++ id`; for distinct id strings the keys are
distinct. -/
theorem index_documents_one_write_per_record (heap : List Doc) (pre : String)
    (rows : List Nat) (d1 d2 : Doc)
    (hid : strOf (d1 "id") ≠ strOf (d2 "id")) :
    (index_documents heap pre rows).writes.map Prod.fst
        = rows.map (fun r => hsetKey pre (getCell heap r)) ∧
    (index_documents heap pre rows).writes.length = rows.length ∧
    hsetKey pre d1 ≠ hsetKey pre d2 := by
  refine ⟨?_, ?_, ?_⟩
  · rw [index_documents_writes_eq, List.map_map]
    rfl
  · rw [index_documents_writes_eq, List.length_map]
  · intro hcontra
    apply hid
    simp only [hsetKey] at hcontra
    have h1 := congrArg String.data hcontra
    rw [String.data_append, String.data_append, String.data_append,
      String.data_append] at h1
    exact String.ext (List.append_cancel_left h1)

theorem index_documents_one_write_per_record_witness :
    (index_documents [] "doc" []).writes.map Prod.fst
        = List.map (fun r => hsetKey "doc" (getCell [] r)) [] ∧
    (index_documents [] "doc" []).writes.length = List.length ([] : List Nat) ∧
    hsetKey "doc" (fun q => if q = "id" then some (.str "1") else none)
      ≠ hsetKey "doc" (fun q => if q = "id" then some (.str "2") else none) :=
  index_documents_one_write_per_record [] "doc" []
    (fun q => if q = "id" then some (.str "1") else none)
    (fun q => if q = "id" then some (.str "2") else none) (by decide)

/-- C8: only the two vector fields are transformed by the ingestion loop;
every other field of a row dict is written to the store unchanged, and the
writes are exactly the transformed rows. -/
theorem index_documents_nonvector_passthrough (heap : List Doc)
    (pre : String) (rows : List Nat) (d : Doc) (k : String)
    (h1 : k ≠ "title_vector") (h2 : k ≠ "content_vector") :
    transformDoc d k = d k ∧
    transformDoc d "title_vector"
      = some (.bytes (serializeVec (floatsOf (d "title_vector")))) ∧
    transformDoc d "content_vector"
      = some (.bytes (serializeVec (floatsOf (d "content_vector")))) ∧
    (index_documents heap pre rows).writes
      = rows.map (fun r =>
          (hsetKey pre (getCell heap r), transformDoc (getCell heap r))) := by
  refine ⟨?_, ?_, ?_, index_documents_writes_eq heap pre rows⟩
  · simp [transformDoc, setField, h1, h2]
  · simp [transformDoc, setField]
  · simp [transformDoc, setField]

theorem index_documents_nonvector_passthrough_witness :
    transformDoc (fun q => if q = "url" then some (.str "u") else none) "url"
        = (fun q => if q = "url" then some (.str "u") else none) "url" ∧
    transformDoc (fun q => if q = "url" then some (.str "u") else none)
        "title_vector"
      = some (.bytes (serializeVec (floatsOf
          ((fun q => if q = "url" then some (.str "u") else none)
            "title_vector")))) ∧
    transformDoc (fun q => if q = "url" then some (.str "u") else none)
        "content_vector"
      = some (.bytes (serializeVec (floatsOf
          ((fun q => if q = "url" then some (.str "u") else none)
            "content_vector")))) ∧
    (index_documents [] "doc" []).writes
      = List.map (fun r =>
          (hsetKey "doc" (getCell [] r), transformDoc (getCell [] r))) [] :=
  index_documents_nonvector_passthrough [] "doc" []
    (fun q => if q = "url" then some (.str "u") else none) "url"
    (by decide) (by decide)

/-! ### Search result lemmas -/

lemma search_docs_take (stored : List ResultDoc) (embed : String → List Nat)
    (uq ix vf : String) (rf : List String) (hf : String) (k : Nat) :
    (search_redis stored embed uq ix vf rf hf k).docs
      = (List.insertionSort scoreLe stored).take k := by
  simp [search_redis, ft_search, search_redis_request]

lemma search_docs_sorted (stored : List ResultDoc)
    (embed : String → List Nat) (uq ix vf : String) (rf : List String)
    (hf : String) (k : Nat) :
    List.Pairwise scoreLe (search_redis stored embed uq ix vf rf hf k).docs := by
  rw [search_docs_take]
  exact List.Pairwise.sublist (List.take_sublist _ _)
    (List.sorted_insertionSort scoreLe stored)

/-- C3: for every `k ≥ 1`, `search_redis` returns at most `k` results, in
non-decreasing order of the store-reported raw distance. -/
theorem search_at_most_k_and_sorted (stored : List ResultDoc)
    (embed : String → List Nat) (uq ix vf : String) (rf : List String)
    (hf : String) (k : Nat) (hk : 1 ≤ k) :
    (search_redis stored embed uq ix vf rf hf k).docs.length ≤ k ∧
    List.Pairwise scoreLe
      (search_redis stored embed uq ix vf rf hf k).docs := by
  refine ⟨?_, search_docs_sorted stored embed uq ix vf rf hf k⟩
  rw [search_docs_take]
  exact List.length_take_le k _

theorem search_at_most_k_and_sorted_witness :
    (search_redis [⟨"a", "u", "t", 3 / 10⟩, ⟨"b", "v", "s", 1 / 10⟩]
        (fun _ => [1]) "q" "embeddings-index" "title_vector"
        ["title", "url", "text", "vector_score"] "*" 1).docs.length ≤ 1 ∧
    List.Pairwise scoreLe
      (search_redis [⟨"a", "u", "t", 3 / 10⟩, ⟨"b", "v", "s", 1 / 10⟩]
        (fun _ => [1]) "q" "embeddings-index" "title_vector"
        ["title", "url", "text", "vector_score"] "*" 1).docs :=
  search_at_most_k_and_sorted
    [⟨"a", "u", "t", 3 / 10⟩, ⟨"b", "v", "s", 1 / 10⟩]
    (fun _ => [1]) "q" "embeddings-index" "title_vector"
    ["title", "url", "text", "vector_score"] "*" 1 (by decide)

/-- C4: for every returned result, `search_redis` computes the normalized
score `1 - raw_distance` and emits it (title, score) in the store's order;
ascending raw distance yields non-increasing normalized scores. -/
theorem search_score_normalized (stored : List ResultDoc)
    (embed : String → List Nat) (uq ix vf : String) (rf : List String)
    (hf : String) (k : Nat) :
    (search_redis stored embed uq ix vf rf hf k).printed
      = (search_redis stored embed uq ix vf rf hf k).docs.map
          (fun d => (d.title, 1 - d.vector_score)) ∧
    List.Pairwise (fun a b : String × Rat => b.2 ≤ a.2)
      (search_redis stored embed uq ix vf rf hf k).printed := by
  constructor
  · rfl
  · show List.Pairwise _
      ((search_redis stored embed uq ix vf rf hf k).docs.map
        (fun d => (d.title, 1 - d.vector_score)))
    rw [List.pairwise_map]
    exact (search_docs_sorted stored embed uq ix vf rf hf k).imp
      (fun h => sub_le_sub_left h 1)
